import Mathlib

/-!
# Verification of the `ppromise` promise library

A shallow embedding of `src/lib.rs`: a single-threaded promise/future
primitive with chained continuations, join combinators, and a poll-based
bridge (`AsyncRunner`) to background jobs.

Modelling choices:

* In the source every `Promise<T>` holds `Rc<RefCell<PromiseState<T>>>`;
  several handles may alias one cell.  We model the store of all promise
  cells as a heap (`List PState`) indexed by cell ids (`Nat`); cloning a
  state handle is copying the cell id.
* Rust values of the various instantiated types `T` are collapsed into one
  universal value type `Val` (naturals, strings, pairs, lists), so a single
  heap can hold promises of every type used by the library and its tests.
* The closures stored in `PromiseState` (boxed `FnBox` continuations) are
  defunctionalised: `Kont` enumerates exactly the closure shapes the
  library itself creates (`then`/`then_move` wrappers, the inner
  `|v2| p_state.resolve(v2)` of the `_promise` variants, and the outer
  closure of `then_move_promise`), while `Fn` / `FnP` / `FnC` enumerate the
  caller-supplied transform shapes used by the join combinators, the tests
  and the claims under verification.
* Panics (`panic!`, `unreachable!`) become `Except.error (Err.panic msg)`
  with the message strings of the source; the process dies, so no heap is
  returned on a panic.
* The interpreter is fuel-indexed (structural recursion on fuel) because a
  continuation may re-enter `resolve` on other cells; `Err.fuel` marks fuel
  exhaustion and is never produced in any run appearing in a theorem.
* To state ordering properties, the machine additionally records a trace:
  whenever a stored continuation is invoked, the pair (target cell of the
  continuation, value it receives) is appended.  This instrumentation is
  purely observational and does not influence the heap transitions.
-/

namespace PPromise

/-- Universal value type standing for the Rust type parameters `T`
instantiated by the library, its tests and the claims
(`i32`, `String`, tuples from `join`, `Vec` from list join). -/
inductive Val where
  | nat : Nat → Val
  | str : String → Val
  | pair : Val → Val → Val
  | list : List Val → Val


/-- Caller-supplied pure transforms `T -> T2` (arguments of `then` /
`then_move`), defunctionalised.  `pairWith x` and `pushVal x` carry a value
captured by the closure at fire time (`move |x2| (x1, x2)` and
`move |mut xs| { xs.push(x); xs }` in the join combinators);
`singleton` is `|x| vec![x]` from list join. -/
inductive Fn where
  | idF : Fn
  | mulK : Nat → Fn
  | pairWith : Val → Fn
  | pushVal : Val → Fn
  | singleton : Fn


/-- Closure shapes `T -> Fn` that capture the fired value and yield the
transform for an inner `then_move` (used by `then_move_promise` callers):
`pairLeft` is `|x1| ... move |x2| (x1, x2)` from pairwise join,
`pushElem` is `|x| ... move |mut xs| { xs.push(x); xs }` from list join. -/
inductive FnC where
  | pairLeft : FnC
  | pushElem : FnC


/-- Caller-supplied transforms `T -> Promise<T2>` (arguments of
`then_promise` / `then_move_promise`), defunctionalised:
`resolvedWith f` is `|x| Promise::resolved(f(x))` (as in the tests),
`freshUnresolved` is `|x| Promise::new()` (a transform returning a
not-yet-resolved promise), `thenMoveOn c fc` is
`|x| c.then_move(fc(x))` (the shape used by the join combinators). -/
inductive FnP where
  | resolvedWith : Fn → FnP
  | freshUnresolved : FnP
  | thenMoveOn : Nat → FnC → FnP


/-- The continuation closures the library itself boxes into a
`PromiseState`:
`resolveWith p f` is `move |value| { p_state.resolve(transform(value)) }`
(built by `then` and `then_move`);
`chainTo p` is `move |v2| { p_state.resolve(v2) }` (the inner closure of
`then_promise` / `then_move_promise`);
`promiseChain p fp` is
`move |value| { let p2 = transform(value); p2._then_move(chainTo p) }`
(the outer closure of `then_promise` / `then_move_promise`). -/
inductive Kont where
  | resolveWith : Nat → Fn → Kont
  | chainTo : Nat → Kont
  | promiseChain : Nat → FnP → Kont


/-- The cell a continuation resolves into (used only by the observational
trace). -/
def Kont.target : Kont → Nat
  | .resolveWith t _ => t
  | .chainTo t => t
  | .promiseChain t _ => t

/-- Embeds `enum PromiseState<T>` from the source.  `Then` holds the ordered
by-reference continuations and the nested next state; `ThenMove` holds the
single by-value continuation. -/
inductive PState where
  | Unresolved : PState
  | Moved : PState
  | Resolved : Val → PState
  | Then : List Kont → PState → PState
  | ThenMove : Kont → PState


/-- The machine: the heap of all promise cells, plus the observational
trace of continuation invocations (target cell, value passed). -/
structure Machine where
  heap : List PState
  trace : List (Nat × Val)


/-- Panics (fatal usage errors) and fuel exhaustion of the interpreter. -/
inductive Err where
  | panic : String → Err
  | fuel : Err


/-- Message of `panic!` in `_then_move` when the state is `Moved`. -/
def moveAfterMovedMsg : String :=
  "Trying to move promise value that has already been moved."

/-- Message of `panic!` in `_then` when the state is `Moved`. -/
def borrowAfterMovedMsg : String :=
  "Trying to borrow promise value that has already been moved."

/-- Message of `panic!` in `insert_then_move` on a `ThenMove` state. -/
def doubleMoveMsg : String :=
  "Cannot move value out of promise twice."

/-- Message of `panic!` in `into_value` on a promise not holding a value. -/
def intoValueMsg : String :=
  "Trying to call into_value on non-value promise."

/-- Message of the Rust macro `unreachable!()`. -/
def unreachableMsg : String :=
  "internal error: entered unreachable code"

/-- Message of the out-of-bounds index panic from `self[0]` on an empty
vector in the list join. -/
def indexOutOfBoundsMsg : String :=
  "index out of bounds"

/-- Read a cell (all runs stay in bounds; the default is irrelevant). -/
def getCell (m : Machine) (i : Nat) : PState :=
  m.heap.getD i PState.Unresolved

/-- Overwrite a cell. -/
def setCell (m : Machine) (i : Nat) (s : PState) : Machine :=
  { m with heap := m.heap.set i s }

/-- Allocate a fresh cell (`Rc::new(RefCell::new(s))`), returning its id. -/
def alloc (m : Machine) (s : PState) : Nat × Machine :=
  (m.heap.length, { m with heap := m.heap ++ [s] })

/-- Record the invocation of a continuation (observational only). -/
def logEv (m : Machine) (t : Nat) (v : Val) : Machine :=
  { m with trace := m.trace ++ [(t, v)] }

/-- Application of a defunctionalised pure transform.  `mulK` and
`pushVal` act on the value shapes they are applied to (naturals and
lists); on any other shape they leave the value unchanged (no such
application occurs in any run below). -/
def applyFn : Fn → Val → Val
  | .idF, v => v
  | .mulK k, .nat n => .nat (n * k)
  | .mulK _, v => v
  | .pairWith x, y => .pair x y
  | .pushVal x, .list l => .list (l ++ [x])
  | .pushVal _, v => v
  | .singleton, x => .list [x]

/-- Application of a value-capturing closure, yielding the inner
transform. -/
def applyFnC : FnC → Val → Fn
  | .pairLeft, x => .pairWith x
  | .pushElem, x => .pushVal x

/-- Embeds `PromiseState::is_resolved`. -/
def PState.is_resolved : PState → Bool
  | .Resolved _ => true
  | _ => false

/-- Embeds `PromiseState::is_moved`. -/
def PState.is_moved : PState → Bool
  | .Moved => true
  | _ => false

/-- Embeds `PromiseState::insert_then`: append a by-reference continuation,
creating a `Then` wrapper when needed.  `Resolved`/`Moved` are
`unreachable!()` (callers guard them). -/
def PState.insert_then : PState → Kont → Except Err PState
  | .Unresolved, k => .ok (.Then [k] .Unresolved)
  | .Then ts next, k => .ok (.Then (ts ++ [k]) next)
  | .ThenMove t, k => .ok (.Then [k] (.ThenMove t))
  | .Resolved _, _ => .error (.panic unreachableMsg)
  | .Moved, _ => .error (.panic unreachableMsg)

/-- Embeds `PromiseState::insert_then_move`: attach the single by-value
continuation, recursing under a `Then` chain; a second one panics. -/
def PState.insert_then_move : PState → Kont → Except Err PState
  | .Unresolved, k => .ok (.ThenMove k)
  | .Then ts next, k => do
      let n ← next.insert_then_move k
      .ok (.Then ts n)
  | .ThenMove _, _ => .error (.panic doubleMoveMsg)
  | .Resolved _, _ => .error (.panic unreachableMsg)
  | .Moved, _ => .error (.panic unreachableMsg)

mutual

/-- Embeds `<Rc<RefCell<PromiseState<T>>> as ResolvableState<T>>::resolve`:
`mem::replace` the cell with `Unresolved`, fold the old state against the
value with `transform`, and store the resulting state back. -/
def resolveCell : Nat → Machine → Nat → Val → Except Err Machine
  | 0, _, _, _ => .error .fuel
  | fuel + 1, m, i, v => do
      let state := getCell m i
      let m1 := setCell m i .Unresolved
      let (s2, m2) ← transformState fuel m1 state v
      .ok (setCell m2 i s2)

/-- Embeds `PromiseState::transform`: fold a state against the arriving value,
firing continuations; `Resolved`/`Moved` are `unreachable!()`. -/
def transformState : Nat → Machine → PState → Val → Except Err (PState × Machine)
  | 0, _, _, _ => .error .fuel
  | fuel + 1, m, s, v =>
      match s with
      | .Unresolved => .ok (.Resolved v, m)
      | .Then ts next => do
          let m1 ← fireList fuel m ts v
          transformState fuel m1 next v
      | .ThenMove k => do
          let m1 ← fireKont fuel m k v
          .ok (.Unresolved, m1)
      | .Resolved _ => .error (.panic unreachableMsg)
      | .Moved => .error (.panic unreachableMsg)

/-- The `for transform in transforms` loop of `transform` on a `Then`
state: invoke the by-reference continuations in registration order. -/
def fireList : Nat → Machine → List Kont → Val → Except Err Machine
  | 0, _, _, _ => .error .fuel
  | _ + 1, m, [], _ => .ok m
  | fuel + 1, m, k :: ks, v => do
      let m1 ← fireKont fuel m k v
      fireList fuel m1 ks v

/-- Invoke one boxed continuation closure with the value (logging the
invocation in the trace). -/
def fireKont : Nat → Machine → Kont → Val → Except Err Machine
  | 0, _, _, _ => .error .fuel
  | fuel + 1, m, k, v =>
      let m0 := logEv m k.target v
      match k with
      | .resolveWith t f => resolveCell fuel m0 t (applyFn f v)
      | .chainTo t => resolveCell fuel m0 t v
      | .promiseChain t fp => do
          let (p2, m1) ← applyFnP fuel m0 fp v
          thenMoveCore fuel m1 p2 (.chainTo t)

/-- Apply a defunctionalised promise-returning transform, yielding the
cell id of the promise it returns. -/
def applyFnP : Nat → Machine → FnP → Val → Except Err (Nat × Machine)
  | 0, _, _, _ => .error .fuel
  | fuel + 1, m, fp, v =>
      match fp with
      | .resolvedWith f => .ok (alloc m (.Resolved (applyFn f v)))
      | .freshUnresolved => .ok (alloc m .Unresolved)
      | .thenMoveOn c fc => then_move fuel m c (applyFnC fc v)

/-- Embeds `Promise::_then_move`: panic if already moved; if already resolved,
replace the cell by `Moved` and consume the value immediately; otherwise
queue via `insert_then_move`. -/
def thenMoveCore : Nat → Machine → Nat → Kont → Except Err Machine
  | 0, _, _, _ => .error .fuel
  | fuel + 1, m, i, k => do
      if (getCell m i).is_moved then
        .error (.panic moveAfterMovedMsg)
      else
        match getCell m i with
        | .Resolved v => fireKont fuel (setCell m i .Moved) k v
        | s => do
            let s2 ← s.insert_then_move k
            .ok (setCell m i s2)

/-- Embeds `Promise::then_move`: allocate the derived promise, register
`resolveWith` on the source, return the cell of the derived promise. -/
def then_move : Nat → Machine → Nat → Fn → Except Err (Nat × Machine)
  | 0, _, _, _ => .error .fuel
  | fuel + 1, m, i, f => do
      let (p, m1) := alloc m .Unresolved
      let m2 ← thenMoveCore fuel m1 i (.resolveWith p f)
      .ok (p, m2)

end

/-- Embeds `Promise::_then`: panic if already moved; if already resolved, invoke
the continuation immediately with a reference (the cell keeps its value);
otherwise queue via `insert_then`. -/
def thenCore (fuel : Nat) (m : Machine) (i : Nat) (k : Kont) : Except Err Machine := do
  if (getCell m i).is_moved then
    .error (.panic borrowAfterMovedMsg)
  else
    match getCell m i with
    | .Resolved v => fireKont fuel m k v
    | s => do
        let s2 ← s.insert_then k
        .ok (setCell m i s2)

/-- Embeds `Promise::then` (named `thenRef` because `then` is a Lean keyword):
allocate the derived promise, register `resolveWith` on the source. -/
def thenRef (fuel : Nat) (m : Machine) (i : Nat) (f : Fn) : Except Err (Nat × Machine) := do
  let (p, m1) := alloc m .Unresolved
  let m2 ← thenCore fuel m1 i (.resolveWith p f)
  .ok (p, m2)

/-- Embeds `Promise::then_move_promise`: allocate the derived promise, register
the `promiseChain` closure by value on the source. -/
def then_move_promise (fuel : Nat) (m : Machine) (i : Nat) (fp : FnP) :
    Except Err (Nat × Machine) := do
  let (p, m1) := alloc m .Unresolved
  let m2 ← thenMoveCore fuel m1 i (.promiseChain p fp)
  .ok (p, m2)

/-- Embeds `Promise::then_promise`: allocate the derived promise, register the
`promiseChain` closure by reference on the source. -/
def then_promise (fuel : Nat) (m : Machine) (i : Nat) (fp : FnP) :
    Except Err (Nat × Machine) := do
  let (p, m1) := alloc m .Unresolved
  let m2 ← thenCore fuel m1 i (.promiseChain p fp)
  .ok (p, m2)

/-- Embeds `Promise::new`: a fresh `Unresolved` cell. -/
def promiseNew (m : Machine) : Nat × Machine :=
  alloc m .Unresolved

/-- Embeds `Promise::resolved`: a fresh cell pre-seeded with `Resolved(value)`. -/
def promiseResolved (m : Machine) (v : Val) : Nat × Machine :=
  alloc m (.Resolved v)

/-- Embeds `Promise::value` (`Ref::filter_map`): the borrowed value when
`Resolved`, otherwise `None`; total and non-blocking, never mutates. -/
def value (m : Machine) (i : Nat) : Option Val :=
  match getCell m i with
  | .Resolved v => some v
  | _ => none

/-- Embeds `Promise::into_value`: `mem::replace` the cell with `Moved` and take
the value; panics unless the old state was `Resolved`. -/
def into_value (m : Machine) (i : Nat) : Except Err (Val × Machine) :=
  let s := getCell m i
  let m1 := setCell m i .Moved
  match s with
  | .Resolved v => .ok (v, m1)
  | _ => .error (.panic intoValueMsg)

/-- The empty machine. -/
def emptyM : Machine := { heap := [], trace := [] }

/-- A machine with one freshly created promise in cell 0. -/
def freshM : Machine := { heap := [.Unresolved], trace := [] }

/-- Pairwise `join` (`Joinable for (&mut Promise<T1>, &mut Promise<T2>)`):
clone a handle to the state of `p2` (copy its cell id) and register on `p1` the
by-value closure `|x1| p1.then_move(move |x2| (x1, x2))` via
`then_move_promise`. -/
def joinPair (fuel : Nat) (m : Machine) (i1 i2 : Nat) : Except Err (Nat × Machine) :=
  then_move_promise fuel m i1 (.thenMoveOn i2 .pairLeft)

/-- The `for i in 1..self.len()` loop of the list join: fold the running
accumulator promise against each remaining element with
`p = self[i].then_move_promise(move |x| p.then_move(move |mut xs| { xs.push(x); xs }))`. -/
def joinListGo (fuel : Nat) (m : Machine) (cells : List Nat) (p : Nat) :
    Except Err (Nat × Machine) :=
  match cells with
  | [] => .ok (p, m)
  | c :: rest => do
      let (p2, m1) ← then_move_promise fuel m c (.thenMoveOn p .pushElem)
      joinListGo fuel m1 rest p2

/-- List `join` (`Joinable for Vec<&mut Promise<T>>`): seed the accumulator
from the first element with `self[0].then_move(|x| vec![x])` — an
out-of-bounds panic on the empty vector — then fold the rest. -/
def joinList (fuel : Nat) (m : Machine) (cells : List Nat) : Except Err (Nat × Machine) :=
  match cells with
  | [] => .error (.panic indexOutOfBoundsMsg)
  | c0 :: rest => do
      let (p, m1) ← then_move fuel m c0 .singleton
      joinListGo fuel m1 rest p

/-! ## AsyncRunner

The background thread and its one-shot mpsc channel are abstracted: a
`Running` record stores the value the spawned job will send (`f()` — the
job closure is pure, so its result is determined at submission) and a flag
`arrived` saying whether the job has completed and sent it.  `try_recv`
succeeds exactly when `arrived` is set.  The thread/pool dispatch itself
has no further observable effect on the model. -/

/-- Embeds `struct Running`: the one-shot receive endpoint paired with the cloned
promise state; `job_result` is what the job will send, `arrived` whether
the send has happened yet. -/
structure Running where
  job_result : Val
  arrived : Bool
  promise_state : Nat

/-- Embeds `struct AsyncRunner` (the pool choice is not observable here). -/
structure AsyncRunner where
  running : List Running

/-- Embeds `AsyncRunner::new`. -/
def AsyncRunner.new : AsyncRunner := ⟨[]⟩

/-- Embeds `AsyncRunner::exec_async`: create the channel, dispatch the wrapped
job (abstracted: its eventual result is `result`), create a fresh
unresolved promise, push the pending record, and return the promise
immediately. -/
def exec_async (a : AsyncRunner) (m : Machine) (result : Val) :
    Nat × AsyncRunner × Machine :=
  let (p, m1) := alloc m .Unresolved
  (p, ⟨a.running ++ [⟨result, false, p⟩]⟩, m1)

/-- Mark the one-shot channel of the pending record at index `i` as having received
its value. -/
def setArrived : List Running → Nat → List Running
  | [], _ => []
  | r :: rs, 0 => { r with arrived := true } :: rs
  | r :: rs, i + 1 => r :: setArrived rs i

/-- The background job completing: the result is sent on the one-shot
channel of record `i`, so the next `try_recv` on it succeeds. -/
def completeJob (a : AsyncRunner) (i : Nat) : AsyncRunner :=
  ⟨setArrived a.running i⟩

/-- Embeds `Running::try_resolve`: non-blocking receive; on success resolve the
associated promise and report `true`, otherwise `false`. -/
def Running.try_resolve (fuel : Nat) (r : Running) (m : Machine) :
    Except Err (Bool × Machine) :=
  if r.arrived then do
    let m1 ← resolveCell fuel m r.promise_state r.job_result
    .ok (true, m1)
  else
    .ok (false, m)

/-- The `into_iter().filter(|r| !r.try_resolve()).collect()` pass of
`try_resolve_all`: visit records in order, dropping each whose receive
succeeded. -/
def tryResolveAllGo (fuel : Nat) : List Running → Machine → Except Err (List Running × Machine)
  | [], m => .ok ([], m)
  | r :: rs, m => do
      let (done, m1) ← r.try_resolve fuel m
      let (keep, m2) ← tryResolveAllGo fuel rs m1
      .ok (if done then keep else r :: keep, m2)

/-- Embeds `AsyncRunner::try_resolve_all`: one non-blocking pass over the pending
records. -/
def try_resolve_all (fuel : Nat) (a : AsyncRunner) (m : Machine) :
    Except Err (AsyncRunner × Machine) :=
  (tryResolveAllGo fuel a.running m).map (fun rm => (⟨rm.1⟩, rm.2))

/-! ## Programs appearing in the claims -/

/-- C2 registration phase: on a fresh promise register by-reference
continuations `f1`, `f2`, then the by-value continuation `g`, then a
further by-reference continuation `f3`.  Derived promises live at cells
1, 2, 3, 4 in registration order. -/
def c2AfterReg (f1 f2 g f3 : Fn) : Except Err Machine := do
  let (_, m) ← thenRef 20 freshM 0 f1
  let (_, m) ← thenRef 20 m 0 f2
  let (_, m) ← then_move 20 m 0 g
  let (_, m) ← thenRef 20 m 0 f3
  .ok m

/-- The machine after the four C2 registrations: the by-reference
continuations are queued in registration order in the `Then` list (the
cell-4 one appended after the move was registered), with the by-value
continuation nested below them. -/
def c2M4 (f1 f2 g f3 : Fn) : Machine :=
  { heap := [.Then [.resolveWith 1 f1, .resolveWith 2 f2, .resolveWith 4 f3]
               (.ThenMove (.resolveWith 3 g)),
             .Unresolved, .Unresolved, .Unresolved, .Unresolved],
    trace := [] }

/-- C2 program: the four registrations followed by `resolve(v)`. -/
def c2Run (v : Val) (f1 f2 g f3 : Fn) : Except Err Machine := do
  let m ← c2AfterReg f1 f2 g f3
  resolveCell 20 m 0 v

/-- C3: the state after a single `then_move` on an unresolved promise
(the continuation is queued). -/
def c3FirstUnresolved (f : Fn) : Except Err Machine :=
  (then_move 20 freshM 0 f).map (fun pm => pm.2)

/-- C3: two `then_move` calls on an unresolved promise. -/
def c3SecondUnresolved (f g : Fn) : Except Err (Nat × Machine) := do
  let (_, m) ← then_move 20 freshM 0 f
  then_move 20 m 0 g

/-- C3: a single `then_move` on an already-resolved promise (the value is
consumed at once). -/
def c3FirstResolved (v : Val) (f : Fn) : Except Err (Nat × Machine) :=
  then_move 20 { heap := [.Resolved v], trace := [] } 0 f

/-- C3: two `then_move` calls on an already-resolved promise. -/
def c3SecondResolved (v : Val) (f g : Fn) : Except Err (Nat × Machine) := do
  let (_, m) ← then_move 20 { heap := [.Resolved v], trace := [] } 0 f
  then_move 20 m 0 g

/-- C3: `then_move` followed by `then_move_promise` on an unresolved
promise. -/
def c3SecondViaPromise (f : Fn) (fp : FnP) : Except Err (Nat × Machine) := do
  let (_, m) ← then_move 20 freshM 0 f
  then_move_promise 20 m 0 fp

/-- C3: a second by-value continuation attached under a `Then` chain
(`then`, `then_move`, `then_move` on an unresolved promise). -/
def c3Nested (f g h : Fn) : Except Err (Nat × Machine) := do
  let (_, m) ← thenRef 20 freshM 0 f
  let (_, m) ← then_move 20 m 0 g
  then_move 20 m 0 h

/-- C6 counterexample source: a promise already resolved to `5`. -/
def c6Source : Machine := { heap := [.Resolved (Val.nat 5)], trace := [] }

/-- C5 / C5-amended source: a promise whose value was already consumed by a
move-continuation. -/
def movedM : Machine := { heap := [.Moved], trace := [] }

/-- C7: register `join(p0, p1)` on two fresh promises (cells 0 and 1);
the joined promise is returned by `joinPair`. -/
def c7Reg : Except Err (Nat × Machine) :=
  joinPair 30 { heap := [.Unresolved, .Unresolved], trace := [] } 0 1

/-- The machine after registering `join(p0, p1)`: the join closure is
queued by value on `p0`, the joined promise is cell 2. -/
def c7MReg : Machine :=
  { heap := [.ThenMove (.promiseChain 2 (.thenMoveOn 1 .pairLeft)),
             .Unresolved, .Unresolved],
    trace := [] }

/-- C7: the machine after resolving `A` first: the second half of the join
closure is now queued on `B` (capturing `va`), and the fresh intermediate
promise (cell 3) chains into the joined promise (cell 2). -/
def c7MA (va : Val) : Machine :=
  { heap := [.Unresolved, .ThenMove (.resolveWith 3 (.pairWith va)),
             .Unresolved, .ThenMove (.chainTo 2)],
    trace := [(2, va)] }

/-- C7: the machine after resolving `B` first: `B` simply holds its value
until the join closure on `A` fires. -/
def c7MB (vb : Val) : Machine :=
  { heap := [.ThenMove (.promiseChain 2 (.thenMoveOn 1 .pairLeft)),
             .Resolved vb, .Unresolved],
    trace := [] }

/-- C7: join, resolve `A` then `B`, read the joined value. -/
def c7AB (va vb : Val) : Except Err (Option Val) := do
  let (j, m) ← c7Reg
  let m ← resolveCell 30 m 0 va
  let m ← resolveCell 30 m 1 vb
  .ok (value m j)

/-- C7: join, resolve `B` then `A`, read the joined value. -/
def c7BA (va vb : Val) : Except Err (Option Val) := do
  let (j, m) ← c7Reg
  let m ← resolveCell 30 m 1 vb
  let m ← resolveCell 30 m 0 va
  .ok (value m j)

/-- C7: join with only `A` resolved. -/
def c7OnlyA (va : Val) : Except Err (Option Val) := do
  let (j, m) ← c7Reg
  let m ← resolveCell 30 m 0 va
  .ok (value m j)

/-- C7: join with only `B` resolved. -/
def c7OnlyB (vb : Val) : Except Err (Option Val) := do
  let (j, m) ← c7Reg
  let m ← resolveCell 30 m 1 vb
  .ok (value m j)

/-- C8: three fresh promises in cells 0, 1, 2. -/
def c8Start : Machine := { heap := [.Unresolved, .Unresolved, .Unresolved], trace := [] }

/-- The machine after registering `join([p0, p1, p2])`: the accumulator
seed is queued on `p0`, and each later element queues a
`then_move_promise` closure folding it onto the running accumulator;
the joined promise is cell 5. -/
def c8MReg : Machine :=
  { heap := [.ThenMove (.resolveWith 3 .singleton),
             .ThenMove (.promiseChain 4 (.thenMoveOn 3 .pushElem)),
             .ThenMove (.promiseChain 5 (.thenMoveOn 4 .pushElem)),
             .Unresolved, .Unresolved, .Unresolved],
    trace := [] }

/-- C8: `join([p0, p1, p2])`, then resolve cell `a` with `va`, cell `b`
with `vb`, cell `c` with `vc` (in that order), then read the joined
promise. -/
def c8Run (a : Nat) (va : Val) (b : Nat) (vb : Val) (c : Nat) (vc : Val) :
    Except Err (Option Val) := do
  let (j, m) ← joinList 40 c8Start [0, 1, 2]
  let m ← resolveCell 40 m a va
  let m ← resolveCell 40 m b vb
  let m ← resolveCell 40 m c vc
  .ok (value m j)

/-- C8: the singleton list join. -/
def c8RunOne (v : Val) : Except Err (Option Val) := do
  let (j, m) ← joinList 40 freshM [0]
  let m ← resolveCell 40 m 0 v
  .ok (value m j)

/-- C9: submit one job (whose eventual result is `res`) to a fresh
runner. -/
def c9Exec (res : Val) : Nat × AsyncRunner × Machine :=
  exec_async AsyncRunner.new emptyM res

/-- C10: `then_move` on a fresh promise, then resolve with `v` (the
continuation consumes the value; cell 0 is left `Unresolved`). -/
def c10AfterFirst (f : Fn) (v : Val) : Except Err Machine := do
  let (_, m) ← then_move 20 freshM 0 f
  resolveCell 20 m 0 v

/-- C10: the same, followed by a second `resolve` with `v2`. -/
def c10Run (f : Fn) (v v2 : Val) : Except Err Machine := do
  let m ← c10AfterFirst f v
  resolveCell 20 m 0 v2

/-! ## Claim theorems -/

/-- Computation helper: binding an `Except.ok` runs the continuation. -/
theorem okBind {α β : Type} (a : α) (f : α → Except Err β) :
    (Except.ok a : Except Err α) >>= f = f a := rfl

/-- C1: on a freshly created unresolved promise, `resolve(p, v)` followed
by `value(p)` returns `v`; and in general `value` returns the value
exactly when the state is `Resolved`, and nothing otherwise (`value` is a
total, non-mutating function: it cannot block). -/
theorem c1_resolve_then_value :
    (∀ v : Val,
        (resolveCell 10 freshM 0 v).map (fun m => value m 0) = .ok (some v)) ∧
    (∀ (m : Machine) (i : Nat) (w : Val),
        value m i = some w ↔ getCell m i = .Resolved w) := by
  refine ⟨fun v => rfl, fun m i w => ?_⟩
  cases hs : getCell m i <;> simp [value, hs]

/-- C2: resolving fires the queued by-reference continuations in
registration order (cells 1, 2, then 4), all before the by-value
continuation (cell 3) consumes the value — even though the cell-4
continuation was registered after the by-value one; each by-reference
continuation receives the (unconsumed) value. -/
theorem c2_registration_order :
    ∀ (v : Val) (f1 f2 g f3 : Fn),
      c2Run v f1 f2 g f3 =
        .ok { heap := [.Unresolved,
                       .Resolved (applyFn f1 v), .Resolved (applyFn f2 v),
                       .Resolved (applyFn g v), .Resolved (applyFn f3 v)],
              trace := [(1, v), (2, v), (4, v), (3, v)] } := by
  intro v f1 f2 g f3
  have hr : c2AfterReg f1 f2 g f3 = .ok (c2M4 f1 f2 g f3) := rfl
  have hv : resolveCell 20 (c2M4 f1 f2 g f3) 0 v =
      .ok { heap := [.Unresolved,
                     .Resolved (applyFn f1 v), .Resolved (applyFn f2 v),
                     .Resolved (applyFn g v), .Resolved (applyFn f3 v)],
            trace := [(1, v), (2, v), (4, v), (3, v)] } := rfl
  simp only [c2Run, hr, okBind, hv]

/-- C3: the second by-value registration on the same promise is a fatal
error in every scenario — before resolution (`insert_then_move` on a
`ThenMove`), after resolution (the moved check of `_then_move`), via
`then_move_promise`, and transitively under a `Then` chain — and at the
point of the second call the first continuation is already queued
(unresolved case) or has already consumed the value (resolved case). -/
theorem c3_move_once :
    ∀ (v : Val) (f g h : Fn) (fp : FnP),
      c3FirstUnresolved f = .ok { heap := [.ThenMove (.resolveWith 1 f), .Unresolved],
                                  trace := [] } ∧
      c3SecondUnresolved f g = .error (.panic doubleMoveMsg) ∧
      c3FirstResolved v f = .ok (1, { heap := [.Moved, .Resolved (applyFn f v)],
                                      trace := [(1, v)] }) ∧
      c3SecondResolved v f g = .error (.panic moveAfterMovedMsg) ∧
      c3SecondViaPromise f fp = .error (.panic doubleMoveMsg) ∧
      c3Nested f g h = .error (.panic doubleMoveMsg) :=
  fun _ _ _ _ _ => ⟨rfl, rfl, rfl, rfl, rfl, rfl⟩

/-- C4: resolving a promise whose state is already `Resolved` or `Moved`
is a fatal error (`unreachable!` in `PromiseState::transform`), not a
recoverable result. -/
theorem c4_double_resolve_fatal :
    ∀ v w : Val,
      resolveCell 10 { heap := [.Resolved w], trace := [] } 0 v =
          .error (.panic unreachableMsg) ∧
      resolveCell 10 { heap := [.Moved], trace := [] } 0 v =
          .error (.panic unreachableMsg) :=
  fun _ _ => ⟨rfl, rfl⟩

/-- C5 counterexample: the claim says that calling `value()` on a promise
whose value was consumed by a move-continuation is a fatal error; in the
code `value()` on a `Moved` promise simply returns nothing
(`Ref::filter_map` falls through to `None`) with no panic at all. -/
theorem c5_counterexample : value movedM 0 = none := rfl

/-- C5 amended: on a `Moved` promise every continuation registration
(`then`, `then_move` and their `_promise` variants) and `into_value()` is
a fatal error, while `value()` returns nothing (it does not fail). -/
theorem c5_after_moved :
    (∀ f : Fn, thenRef 10 movedM 0 f = .error (.panic borrowAfterMovedMsg)) ∧
    (∀ f : Fn, then_move 10 movedM 0 f = .error (.panic moveAfterMovedMsg)) ∧
    (∀ fp : FnP, then_promise 10 movedM 0 fp = .error (.panic borrowAfterMovedMsg)) ∧
    (∀ fp : FnP, then_move_promise 10 movedM 0 fp = .error (.panic moveAfterMovedMsg)) ∧
    into_value movedM 0 = .error (.panic intoValueMsg) ∧
    value movedM 0 = none :=
  ⟨fun _ => rfl, fun _ => rfl, fun _ => rfl, fun _ => rfl, rfl, rfl⟩

/-- C6 counterexample: the claim says the promise returned by any
registration on an already-resolved promise is itself already resolved
when registration returns; but `then_promise` with a transform returning a
fresh unresolved promise (`|x| Promise::new()`) fires synchronously yet
leaves the derived promise (cell 1) unresolved — its value is `none`. -/
theorem c6_counterexample :
    then_promise 10 c6Source 0 .freshUnresolved =
      .ok (1, { heap := [.Resolved (Val.nat 5), .Unresolved, .ThenMove (.chainTo 1)],
                trace := [(1, Val.nat 5)] }) ∧
    value { heap := [PState.Resolved (Val.nat 5), PState.Unresolved,
                     PState.ThenMove (Kont.chainTo 1)],
            trace := [(1, Val.nat 5)] } 1 = none :=
  ⟨rfl, rfl⟩

/-- C6 amended: on an already-resolved promise every registration fires
its continuation synchronously before returning, borrowing (`then*`: the
source keeps its value) or consuming (`then_move*`: the source becomes
`Moved`) the value immediately; for `then`/`then_move` the derived promise
is already resolved with the transformed value at return, and for the
`_promise` variants it is already resolved exactly when the promise
returned by the transform is (here: a pre-resolved one). -/
theorem c6_sync_fire_on_resolved :
    ∀ (v : Val) (f : Fn),
      thenRef 10 { heap := [.Resolved v], trace := [] } 0 f =
        .ok (1, { heap := [.Resolved v, .Resolved (applyFn f v)], trace := [(1, v)] }) ∧
      then_move 10 { heap := [.Resolved v], trace := [] } 0 f =
        .ok (1, { heap := [.Moved, .Resolved (applyFn f v)], trace := [(1, v)] }) ∧
      then_promise 10 { heap := [.Resolved v], trace := [] } 0 (.resolvedWith f) =
        .ok (1, { heap := [.Resolved v, .Resolved (applyFn f v), .Moved],
                  trace := [(1, v), (1, applyFn f v)] }) ∧
      then_move_promise 10 { heap := [.Resolved v], trace := [] } 0 (.resolvedWith f) =
        .ok (1, { heap := [.Moved, .Resolved (applyFn f v), .Moved],
                  trace := [(1, v), (1, applyFn f v)] }) :=
  fun _ _ => ⟨rfl, rfl, rfl, rfl⟩

/-- C7: `join(A, B)` yields the same final tuple `(a, b)` whether `A` is
resolved before `B` or `B` before `A`, and while only one input is
resolved the joined promise is still unresolved. -/
theorem c7_join_commutes :
    ∀ va vb : Val,
      c7AB va vb = .ok (some (.pair va vb)) ∧
      c7BA va vb = .ok (some (.pair va vb)) ∧
      c7OnlyA va = .ok none ∧
      c7OnlyB vb = .ok none := by
  intro va vb
  have hreg : c7Reg = .ok (2, c7MReg) := rfl
  have ha : resolveCell 30 c7MReg 0 va = .ok (c7MA va) := rfl
  have hb : resolveCell 30 c7MReg 1 vb = .ok (c7MB vb) := rfl
  have hab : resolveCell 30 (c7MA va) 1 vb =
      .ok { heap := [.Unresolved, .Unresolved, .Resolved (va.pair vb), .Unresolved],
            trace := [(2, va), (3, vb), (2, va.pair vb)] } := rfl
  have hba : resolveCell 30 (c7MB vb) 0 va =
      .ok { heap := [.Unresolved, .Moved, .Resolved (va.pair vb), .Moved],
            trace := [(2, va), (3, vb), (2, va.pair vb)] } := rfl
  refine ⟨?_, ?_, ?_, ?_⟩
  · simp only [c7AB, hreg, okBind, ha, hab]; rfl
  · simp only [c7BA, hreg, okBind, hb, hba]; rfl
  · simp only [c7OnlyA, hreg, okBind, ha]; rfl
  · simp only [c7OnlyB, hreg, okBind, hb]; rfl

/-- C8: `join([p0, p1, p2])` yields the values in input order
`[v0, v1, v2]` under every one of the six resolution orders; the singleton
join yields `[v]`; and the empty input sequence is a fatal out-of-bounds
panic (`self[0]` is indexed unchecked), so non-emptiness is a
precondition. -/
theorem c8_list_join_order :
    ∀ v0 v1 v2 : Val,
      c8Run 0 v0 1 v1 2 v2 = .ok (some (.list [v0, v1, v2])) ∧
      c8Run 0 v0 2 v2 1 v1 = .ok (some (.list [v0, v1, v2])) ∧
      c8Run 1 v1 0 v0 2 v2 = .ok (some (.list [v0, v1, v2])) ∧
      c8Run 1 v1 2 v2 0 v0 = .ok (some (.list [v0, v1, v2])) ∧
      c8Run 2 v2 0 v0 1 v1 = .ok (some (.list [v0, v1, v2])) ∧
      c8Run 2 v2 1 v1 0 v0 = .ok (some (.list [v0, v1, v2])) ∧
      c8RunOne v0 = .ok (some (.list [v0])) ∧
      joinList 40 emptyM [] = .error (.panic indexOutOfBoundsMsg) := by
  intro v0 v1 v2
  have hreg : joinList 40 c8Start [0, 1, 2] = .ok (5, c8MReg) := rfl
  refine ⟨?_, ?_, ?_, ?_, ?_, ?_, ?_, rfl⟩
  · have h1 : resolveCell 40 c8MReg 0 v0 = .ok ({ heap := [PState.Unresolved, PState.ThenMove (Kont.promiseChain 4 (FnP.thenMoveOn 3 FnC.pushElem)), PState.ThenMove (Kont.promiseChain 5 (FnP.thenMoveOn 4 FnC.pushElem)), PState.Resolved (Val.list [v0]), PState.Unresolved, PState.Unresolved], trace := [(3, v0)] }) := rfl
    have h2 : resolveCell 40 ({ heap := [PState.Unresolved, PState.ThenMove (Kont.promiseChain 4 (FnP.thenMoveOn 3 FnC.pushElem)), PState.ThenMove (Kont.promiseChain 5 (FnP.thenMoveOn 4 FnC.pushElem)), PState.Resolved (Val.list [v0]), PState.Unresolved, PState.Unresolved], trace := [(3, v0)] }) 1 v1 = .ok ({ heap := [PState.Unresolved, PState.Unresolved, PState.ThenMove (Kont.promiseChain 5 (FnP.thenMoveOn 4 FnC.pushElem)), PState.Moved, PState.Resolved (Val.list [v0, v1]), PState.Unresolved, PState.Moved], trace := [(3, v0), (4, v1), (6, Val.list [v0]), (4, Val.list [v0, v1])] }) := rfl
    have h3 : resolveCell 40 ({ heap := [PState.Unresolved, PState.Unresolved, PState.ThenMove (Kont.promiseChain 5 (FnP.thenMoveOn 4 FnC.pushElem)), PState.Moved, PState.Resolved (Val.list [v0, v1]), PState.Unresolved, PState.Moved], trace := [(3, v0), (4, v1), (6, Val.list [v0]), (4, Val.list [v0, v1])] }) 2 v2 = .ok ({ heap := [PState.Unresolved, PState.Unresolved, PState.Unresolved, PState.Moved, PState.Moved, PState.Resolved (Val.list [v0, v1, v2]), PState.Moved, PState.Moved], trace := [(3, v0), (4, v1), (6, Val.list [v0]), (4, Val.list [v0, v1]), (5, v2), (7, Val.list [v0, v1]), (5, Val.list [v0, v1, v2])] }) := rfl
    simp only [c8Run, hreg, okBind, h1, h2, h3]; rfl
  · have h1 : resolveCell 40 c8MReg 0 v0 = .ok ({ heap := [PState.Unresolved, PState.ThenMove (Kont.promiseChain 4 (FnP.thenMoveOn 3 FnC.pushElem)), PState.ThenMove (Kont.promiseChain 5 (FnP.thenMoveOn 4 FnC.pushElem)), PState.Resolved (Val.list [v0]), PState.Unresolved, PState.Unresolved], trace := [(3, v0)] }) := rfl
    have h2 : resolveCell 40 ({ heap := [PState.Unresolved, PState.ThenMove (Kont.promiseChain 4 (FnP.thenMoveOn 3 FnC.pushElem)), PState.ThenMove (Kont.promiseChain 5 (FnP.thenMoveOn 4 FnC.pushElem)), PState.Resolved (Val.list [v0]), PState.Unresolved, PState.Unresolved], trace := [(3, v0)] }) 2 v2 = .ok ({ heap := [PState.Unresolved, PState.ThenMove (Kont.promiseChain 4 (FnP.thenMoveOn 3 FnC.pushElem)), PState.Unresolved, PState.Resolved (Val.list [v0]), PState.ThenMove (Kont.resolveWith 6 (Fn.pushVal v2)), PState.Unresolved, PState.ThenMove (Kont.chainTo 5)], trace := [(3, v0), (5, v2)] }) := rfl
    have h3 : resolveCell 40 ({ heap := [PState.Unresolved, PState.ThenMove (Kont.promiseChain 4 (FnP.thenMoveOn 3 FnC.pushElem)), PState.Unresolved, PState.Resolved (Val.list [v0]), PState.ThenMove (Kont.resolveWith 6 (Fn.pushVal v2)), PState.Unresolved, PState.ThenMove (Kont.chainTo 5)], trace := [(3, v0), (5, v2)] }) 1 v1 = .ok ({ heap := [PState.Unresolved, PState.Unresolved, PState.Unresolved, PState.Moved, PState.Unresolved, PState.Resolved (Val.list [v0, v1, v2]), PState.Unresolved, PState.Moved], trace := [(3, v0), (5, v2), (4, v1), (7, Val.list [v0]), (4, Val.list [v0, v1]), (6, Val.list [v0, v1]), (5, Val.list [v0, v1, v2])] }) := rfl
    simp only [c8Run, hreg, okBind, h1, h2, h3]; rfl
  · have h1 : resolveCell 40 c8MReg 1 v1 = .ok ({ heap := [PState.ThenMove (Kont.resolveWith 3 Fn.singleton), PState.Unresolved, PState.ThenMove (Kont.promiseChain 5 (FnP.thenMoveOn 4 FnC.pushElem)), PState.ThenMove (Kont.resolveWith 6 (Fn.pushVal v1)), PState.Unresolved, PState.Unresolved, PState.ThenMove (Kont.chainTo 4)], trace := [(4, v1)] }) := rfl
    have h2 : resolveCell 40 ({ heap := [PState.ThenMove (Kont.resolveWith 3 Fn.singleton), PState.Unresolved, PState.ThenMove (Kont.promiseChain 5 (FnP.thenMoveOn 4 FnC.pushElem)), PState.ThenMove (Kont.resolveWith 6 (Fn.pushVal v1)), PState.Unresolved, PState.Unresolved, PState.ThenMove (Kont.chainTo 4)], trace := [(4, v1)] }) 0 v0 = .ok ({ heap := [PState.Unresolved, PState.Unresolved, PState.ThenMove (Kont.promiseChain 5 (FnP.thenMoveOn 4 FnC.pushElem)), PState.Unresolved, PState.Resolved (Val.list [v0, v1]), PState.Unresolved, PState.Unresolved], trace := [(4, v1), (3, v0), (6, Val.list [v0]), (4, Val.list [v0, v1])] }) := rfl
    have h3 : resolveCell 40 ({ heap := [PState.Unresolved, PState.Unresolved, PState.ThenMove (Kont.promiseChain 5 (FnP.thenMoveOn 4 FnC.pushElem)), PState.Unresolved, PState.Resolved (Val.list [v0, v1]), PState.Unresolved, PState.Unresolved], trace := [(4, v1), (3, v0), (6, Val.list [v0]), (4, Val.list [v0, v1])] }) 2 v2 = .ok ({ heap := [PState.Unresolved, PState.Unresolved, PState.Unresolved, PState.Unresolved, PState.Moved, PState.Resolved (Val.list [v0, v1, v2]), PState.Unresolved, PState.Moved], trace := [(4, v1), (3, v0), (6, Val.list [v0]), (4, Val.list [v0, v1]), (5, v2), (7, Val.list [v0, v1]), (5, Val.list [v0, v1, v2])] }) := rfl
    simp only [c8Run, hreg, okBind, h1, h2, h3]; rfl
  · have h1 : resolveCell 40 c8MReg 1 v1 = .ok ({ heap := [PState.ThenMove (Kont.resolveWith 3 Fn.singleton), PState.Unresolved, PState.ThenMove (Kont.promiseChain 5 (FnP.thenMoveOn 4 FnC.pushElem)), PState.ThenMove (Kont.resolveWith 6 (Fn.pushVal v1)), PState.Unresolved, PState.Unresolved, PState.ThenMove (Kont.chainTo 4)], trace := [(4, v1)] }) := rfl
    have h2 : resolveCell 40 ({ heap := [PState.ThenMove (Kont.resolveWith 3 Fn.singleton), PState.Unresolved, PState.ThenMove (Kont.promiseChain 5 (FnP.thenMoveOn 4 FnC.pushElem)), PState.ThenMove (Kont.resolveWith 6 (Fn.pushVal v1)), PState.Unresolved, PState.Unresolved, PState.ThenMove (Kont.chainTo 4)], trace := [(4, v1)] }) 2 v2 = .ok ({ heap := [PState.ThenMove (Kont.resolveWith 3 Fn.singleton), PState.Unresolved, PState.Unresolved, PState.ThenMove (Kont.resolveWith 6 (Fn.pushVal v1)), PState.ThenMove (Kont.resolveWith 7 (Fn.pushVal v2)), PState.Unresolved, PState.ThenMove (Kont.chainTo 4), PState.ThenMove (Kont.chainTo 5)], trace := [(4, v1), (5, v2)] }) := rfl
    have h3 : resolveCell 40 ({ heap := [PState.ThenMove (Kont.resolveWith 3 Fn.singleton), PState.Unresolved, PState.Unresolved, PState.ThenMove (Kont.resolveWith 6 (Fn.pushVal v1)), PState.ThenMove (Kont.resolveWith 7 (Fn.pushVal v2)), PState.Unresolved, PState.ThenMove (Kont.chainTo 4), PState.ThenMove (Kont.chainTo 5)], trace := [(4, v1), (5, v2)] }) 0 v0 = .ok ({ heap := [PState.Unresolved, PState.Unresolved, PState.Unresolved, PState.Unresolved, PState.Unresolved, PState.Resolved (Val.list [v0, v1, v2]), PState.Unresolved, PState.Unresolved], trace := [(4, v1), (5, v2), (3, v0), (6, Val.list [v0]), (4, Val.list [v0, v1]), (7, Val.list [v0, v1]), (5, Val.list [v0, v1, v2])] }) := rfl
    simp only [c8Run, hreg, okBind, h1, h2, h3]; rfl
  · have h1 : resolveCell 40 c8MReg 2 v2 = .ok ({ heap := [PState.ThenMove (Kont.resolveWith 3 Fn.singleton), PState.ThenMove (Kont.promiseChain 4 (FnP.thenMoveOn 3 FnC.pushElem)), PState.Unresolved, PState.Unresolved, PState.ThenMove (Kont.resolveWith 6 (Fn.pushVal v2)), PState.Unresolved, PState.ThenMove (Kont.chainTo 5)], trace := [(5, v2)] }) := rfl
    have h2 : resolveCell 40 ({ heap := [PState.ThenMove (Kont.resolveWith 3 Fn.singleton), PState.ThenMove (Kont.promiseChain 4 (FnP.thenMoveOn 3 FnC.pushElem)), PState.Unresolved, PState.Unresolved, PState.ThenMove (Kont.resolveWith 6 (Fn.pushVal v2)), PState.Unresolved, PState.ThenMove (Kont.chainTo 5)], trace := [(5, v2)] }) 0 v0 = .ok ({ heap := [PState.Unresolved, PState.ThenMove (Kont.promiseChain 4 (FnP.thenMoveOn 3 FnC.pushElem)), PState.Unresolved, PState.Resolved (Val.list [v0]), PState.ThenMove (Kont.resolveWith 6 (Fn.pushVal v2)), PState.Unresolved, PState.ThenMove (Kont.chainTo 5)], trace := [(5, v2), (3, v0)] }) := rfl
    have h3 : resolveCell 40 ({ heap := [PState.Unresolved, PState.ThenMove (Kont.promiseChain 4 (FnP.thenMoveOn 3 FnC.pushElem)), PState.Unresolved, PState.Resolved (Val.list [v0]), PState.ThenMove (Kont.resolveWith 6 (Fn.pushVal v2)), PState.Unresolved, PState.ThenMove (Kont.chainTo 5)], trace := [(5, v2), (3, v0)] }) 1 v1 = .ok ({ heap := [PState.Unresolved, PState.Unresolved, PState.Unresolved, PState.Moved, PState.Unresolved, PState.Resolved (Val.list [v0, v1, v2]), PState.Unresolved, PState.Moved], trace := [(5, v2), (3, v0), (4, v1), (7, Val.list [v0]), (4, Val.list [v0, v1]), (6, Val.list [v0, v1]), (5, Val.list [v0, v1, v2])] }) := rfl
    simp only [c8Run, hreg, okBind, h1, h2, h3]; rfl
  · have h1 : resolveCell 40 c8MReg 2 v2 = .ok ({ heap := [PState.ThenMove (Kont.resolveWith 3 Fn.singleton), PState.ThenMove (Kont.promiseChain 4 (FnP.thenMoveOn 3 FnC.pushElem)), PState.Unresolved, PState.Unresolved, PState.ThenMove (Kont.resolveWith 6 (Fn.pushVal v2)), PState.Unresolved, PState.ThenMove (Kont.chainTo 5)], trace := [(5, v2)] }) := rfl
    have h2 : resolveCell 40 ({ heap := [PState.ThenMove (Kont.resolveWith 3 Fn.singleton), PState.ThenMove (Kont.promiseChain 4 (FnP.thenMoveOn 3 FnC.pushElem)), PState.Unresolved, PState.Unresolved, PState.ThenMove (Kont.resolveWith 6 (Fn.pushVal v2)), PState.Unresolved, PState.ThenMove (Kont.chainTo 5)], trace := [(5, v2)] }) 1 v1 = .ok ({ heap := [PState.ThenMove (Kont.resolveWith 3 Fn.singleton), PState.Unresolved, PState.Unresolved, PState.ThenMove (Kont.resolveWith 7 (Fn.pushVal v1)), PState.ThenMove (Kont.resolveWith 6 (Fn.pushVal v2)), PState.Unresolved, PState.ThenMove (Kont.chainTo 5), PState.ThenMove (Kont.chainTo 4)], trace := [(5, v2), (4, v1)] }) := rfl
    have h3 : resolveCell 40 ({ heap := [PState.ThenMove (Kont.resolveWith 3 Fn.singleton), PState.Unresolved, PState.Unresolved, PState.ThenMove (Kont.resolveWith 7 (Fn.pushVal v1)), PState.ThenMove (Kont.resolveWith 6 (Fn.pushVal v2)), PState.Unresolved, PState.ThenMove (Kont.chainTo 5), PState.ThenMove (Kont.chainTo 4)], trace := [(5, v2), (4, v1)] }) 0 v0 = .ok ({ heap := [PState.Unresolved, PState.Unresolved, PState.Unresolved, PState.Unresolved, PState.Unresolved, PState.Resolved (Val.list [v0, v1, v2]), PState.Unresolved, PState.Unresolved], trace := [(5, v2), (4, v1), (3, v0), (7, Val.list [v0]), (4, Val.list [v0, v1]), (6, Val.list [v0, v1]), (5, Val.list [v0, v1, v2])] }) := rfl
    simp only [c8Run, hreg, okBind, h1, h2, h3]; rfl
  · have hr1 : joinList 40 freshM [0] =
        .ok (1, ({ heap := [PState.ThenMove (Kont.resolveWith 1 Fn.singleton), PState.Unresolved], trace := [] } : Machine)) := rfl
    have hv1 : resolveCell 40 ({ heap := [PState.ThenMove (Kont.resolveWith 1 Fn.singleton), PState.Unresolved], trace := [] } : Machine) 0 v0 =
        .ok ({ heap := [PState.Unresolved, PState.Resolved (Val.list [v0])], trace := [(1, v0)] } : Machine) := rfl
    simp only [c8RunOne, hr1, okBind, hv1]; rfl

/-- C9: `exec_async` returns a promise (cell 0) that is unresolved at
return, with one pending record; polling before the job completes keeps
the record and leaves the promise unresolved; the first poll after
completion resolves the promise with the result of the job and discards the
record, after which `value()` returns that result; and a single pending
record resolves on its non-blocking receive exactly when the result has
arrived. -/
theorem c9_async_round_trip :
    ∀ (res : Val) (p : Nat) (m : Machine),
      (c9Exec res).1 = 0 ∧
      value (c9Exec res).2.2 0 = none ∧
      (c9Exec res).2.1.running = [⟨res, false, 0⟩] ∧
      try_resolve_all 10 (c9Exec res).2.1 (c9Exec res).2.2 =
        .ok ((c9Exec res).2.1, (c9Exec res).2.2) ∧
      try_resolve_all 10 (completeJob (c9Exec res).2.1 0) (c9Exec res).2.2 =
        .ok (⟨[]⟩, { heap := [.Resolved res], trace := [] }) ∧
      value { heap := [PState.Resolved res], trace := ([] : List (Nat × Val)) } 0
        = some res ∧
      Running.try_resolve 10 ⟨res, false, p⟩ m = .ok (false, m) ∧
      Running.try_resolve 10 ⟨res, true, 0⟩ freshM =
        .ok (true, { heap := [.Resolved res], trace := [] }) :=
  fun _ _ _ => ⟨rfl, rfl, rfl, rfl, rfl, rfl, rfl, rfl⟩

/-- C10: a `then_move` continuation registered while unresolved leaves the
cell `Unresolved` (not `Moved`) after resolution consumes the value, so a
second `resolve` succeeds without any error and leaves the promise
`Resolved(v2)`. -/
theorem c10_resolve_after_consumed_move :
    ∀ (f : Fn) (v v2 : Val),
      c10AfterFirst f v =
        .ok { heap := [.Unresolved, .Resolved (applyFn f v)], trace := [(1, v)] } ∧
      c10Run f v v2 =
        .ok { heap := [.Resolved v2, .Resolved (applyFn f v)], trace := [(1, v)] } :=
  fun _ _ _ => ⟨rfl, rfl⟩

end PPromise
